import Mathlib

/-!
Verification of the VolumePlay21 media-library service (`src/app.py`) against
its natural-language specification.  The development shallowly embeds the
catalog data model, the library scanner's per-row reconciliation, the probe
rotation logic, the pruning helper, the background-job error handling, the
watch-progress endpoint, the SRT→VTT converter, and the `/api/videos` query
engine as executable Lean definitions, and proves the specified properties
about them.
-/

namespace VolumePlay

/-! ## Data model

One record per catalog row, mirroring the `Video` SQLAlchemy model.
Nullable columns become `Option`, `DateTime` columns are abstracted to an
integer timestamp, and only the columns the verified components touch are
carried. -/

structure Video where
  id : Int
  video_path : String
  title : String
  show_title : Option String
  summary : Option String
  relative_path : Option String
  thumbnail_path : Option String
  show_poster_path : Option String
  custom_thumbnail_path : Option String
  subtitle_path : Option String
  is_favorite : Bool
  is_watch_later : Bool
  last_watched : Option Int
  watched_duration : Int
  is_short : Bool
  duration : Int
  transcoded_path : Option String
  video_type : Option String
  media_type : String
  is_associated_thumbnail : Bool
  deriving DecidableEq, Repr

/-- A `PlaylistItem` row: membership of a video in a standard playlist. -/
structure PlaylistItem where
  playlist_id : Int
  video_id : Int
  deriving DecidableEq, Repr

/-- The slice of database state the verified components read and write. -/
structure DB where
  videos : List Video
  playlist_items : List PlaylistItem
  smart_playlist_ids : List Int
  deriving DecidableEq, Repr

/-! ## Scanner: technical probe rotation (`_scan_videos_task`, app.py 379-391)

The ffprobe adapter parses the rotation from up to three places of the probe
output.  Each argument below is the integer that Python's
`int(float(...))` on the corresponding raw field would produce, or `none`
when the field is absent/unparsable (in the source an absent field defaults
to the string `'0'` and a parse failure leaves the running value `0`, so
both collapse to contributing `0`). -/

/-- Rotation extraction exactly as `_scan_videos_task` performs it: the
stream tag first, and only when that yielded `0` the first side-data entry.
The disposition flag is requested in the `ffprobe` command line but the
parsing code never reads it, hence the unused third argument. -/
def ffprobeRotation (tag side _disposition : Option Int) : Int :=
  let rotation := tag.getD 0
  if rotation == 0 then side.getD 0 else rotation

/-- Rotation extraction as the specification words it: stream tag, then
side-data, then disposition flag, first non-zero value wins (zero when no
source yields a non-zero value). -/
def specRotation (tag side disposition : Option Int) : Int :=
  let r1 := tag.getD 0
  if r1 != 0 then r1
  else
    let r2 := side.getD 0
    if r2 != 0 then r2 else disposition.getD 0

/-! ## Scanner: effective dimensions and shorts flag (app.py 386-391) -/

/-- Effective (display) dimensions `(effective_width, effective_height)`
computed from the coded dimensions and the probed rotation: the scanner
swaps width and height when `abs(rotation)` is 90 or 270. -/
def effectiveDimensions (coded_width coded_height rotation : Int) :
    Int × Int :=
  if rotation.natAbs == 90 || rotation.natAbs == 270 then
    (coded_height, coded_width)
  else
    (coded_width, coded_height)

/-- The scanner's `is_short` flag: effective height strictly greater than
effective width. -/
def isShortOf (coded_width coded_height rotation : Int) : Bool :=
  let dims := effectiveDimensions coded_width coded_height rotation
  decide (dims.2 > dims.1)

/-! ## Scanner: catalog upsert of an existing row (app.py 492-523)

The data the scanner extracted for one file.  Only the fields the
existing-row update branch writes are carried. -/

structure ScanData where
  media_type : String
  is_associated_thumbnail : Bool
  title : String
  duration : Int
  thumbnail_path : Option String
  show_poster_path : Option String
  custom_thumbnail_path : Option String
  subtitle_path : Option String
  deriving DecidableEq, Repr

/-- The update branch of the scanner's DB add/update step (app.py 495-506):
the fields assigned on an already-cataloged row.  The thumbnail path is
only replaced when a new one was found (`if thumbnail_file_path:`). -/
def updateExistingVideo (v : Video) (d : ScanData) : Video :=
  { v with
    media_type := d.media_type
    is_associated_thumbnail := d.is_associated_thumbnail
    title := d.title
    duration := d.duration
    thumbnail_path :=
      if d.thumbnail_path.isSome then d.thumbnail_path else v.thumbnail_path
    show_poster_path := d.show_poster_path
    custom_thumbnail_path := d.custom_thumbnail_path
    subtitle_path := d.subtitle_path }

/-- How one scan pass treats an already-cataloged row: an incremental scan
(`full_scan=False`) skips the file entirely when its path is in the
pre-loaded cache (app.py 321-323); a full scan runs the update branch. -/
def scanProcessExisting (full_scan : Bool) (v : Video) (d : ScanData) :
    Video :=
  if full_scan then updateExistingVideo v d else v

/-! ## Library pruning (`_prune_missing_videos`, app.py 205-270)

The helper's database effects are modelled as a trace of operations (one
playlist-membership delete, the per-row video deletes, the final commit)
plus the returned count; the best-effort filesystem deletions are driven by
two oracles — which asset files exist, and which `os.remove` calls fail (a
failure is caught and logged, app.py 235-254). -/

inductive DBOp
  | deletePlaylistItems (videoIds : List Int)
  | deleteVideo (id : Int)
  | commit
  deriving DecidableEq, Repr

/-- One guarded best-effort `os.remove`: attempted only when the column is
non-null and the file exists; a failing removal removes nothing (the
exception is caught). -/
def tryRemove (fsExists fsFail : String → Bool) : Option String →
    List String
  | none => []
  | some pth => if fsExists pth && !fsFail pth then [pth] else []

/-- The three asset-deletion attempts for one pruned row, in source order:
transcoded copy, auto thumbnail, custom thumbnail. -/
def pruneAssetRemovals (fsExists fsFail : String → Bool) (v : Video) :
    List String :=
  tryRemove fsExists fsFail v.transcoded_path ++
  tryRemove fsExists fsFail v.thumbnail_path ++
  tryRemove fsExists fsFail v.custom_thumbnail_path

/-- The `db_video_map` dict keyed by `video_path` (insertion order, later
duplicate paths overwrite the stored row). -/
def buildPathMap (rows : List Video) : List Video :=
  rows.foldl
    (fun acc v =>
      if acc.any (fun w => w.video_path == v.video_path) then
        acc.map (fun w => if w.video_path == v.video_path then v else w)
      else acc ++ [v])
    []

structure PruneResult where
  ops : List DBOp
  deleted_count : Nat
  removed_files : List String
  deriving DecidableEq, Repr

/-- `_prune_missing_videos` (app.py 205-270): rows whose path is in the
catalog but not in the found set are deleted — first their playlist
memberships in one statement, then each row, with the best-effort asset
removals interleaved per row — and one commit ends the run; an empty
difference returns 0 with no writes. -/
def prune_missing_videos (fsExists fsFail : String → Bool) (db : DB)
    (found_video_paths : List String) : PruneResult :=
  let db_video_map := buildPathMap db.videos
  let paths_to_delete := db_video_map.filter
    (fun v => !found_video_paths.contains v.video_path)
  if paths_to_delete.isEmpty then
    { ops := [], deleted_count := 0, removed_files := [] }
  else
    let video_ids_to_delete := paths_to_delete.map (fun v => v.id)
    { ops := DBOp.deletePlaylistItems video_ids_to_delete ::
        (paths_to_delete.map (fun v => DBOp.deleteVideo v.id) ++
          [DBOp.commit]),
      deleted_count := paths_to_delete.length,
      removed_files := paths_to_delete.foldl
        (fun acc v => acc ++ pruneAssetRemovals fsExists fsFail v) [] }

/-- Effect of one database operation on the stored state. -/
def applyDBOp (st : DB) : DBOp → DB
  | .deletePlaylistItems ids =>
    { st with playlist_items :=
        st.playlist_items.filter (fun it => !ids.contains it.video_id) }
  | .deleteVideo i =>
    { st with videos := st.videos.filter (fun v => !(v.id == i)) }
  | .commit => st

def applyDBOps (st : DB) (ops : List DBOp) : DB := ops.foldl applyDBOp st

/-! ## Job coordinator: task finalization (app.py 547-552, 737-743)

Each background task body either completes or raises; the model takes the
body's outcome (`Except.error msg` for an escaping exception) and mirrors
the task's `except`/`finally` blocks to produce the final status record and
whether the job-kind lock was released. -/

inductive JobStatus
  | idle (message : String)
  | running (message : String)
  | error (message : String)
  deriving DecidableEq, Repr

structure JobOutcome where
  status : JobStatus
  lockReleased : Bool
  deriving DecidableEq, Repr

/-- `_scan_videos_task` finalization (app.py 538, 547-552): on success the
body's last write sets `idle`; the `except` block sets the error status with
the exception's message; the `finally` block only releases `SCAN_LOCK`. -/
def scanTaskOutcome (body : Except String Unit) : JobOutcome :=
  let statusAfterTry : JobStatus :=
    match body with
    | .ok _ => .idle "Scan complete."
    | .error m => .error m
  { status := statusAfterTry, lockReleased := true }

/-- `_cleanup_library_task` finalization (app.py 591-599): same shape as the
scan task, with its own messages; the success message carries the pruned
count. -/
def cleanupTaskOutcome (body : Except String Unit) (successMsg : String) :
    JobOutcome :=
  let statusAfterTry : JobStatus :=
    match body with
    | .ok _ => .idle successMsg
    | .error m => .error m
  { status := statusAfterTry, lockReleased := true }

/-- `_transcode_video_task` finalization (app.py 805-818): errors set the
error status; the `finally` block only releases `TRANSCODE_LOCK`. -/
def transcodeTaskOutcome (body : Except String Unit) : JobOutcome :=
  let statusAfterTry : JobStatus :=
    match body with
    | .ok _ => .idle "Transcode complete."
    | .error m => .error m
  { status := statusAfterTry, lockReleased := true }

/-- `_generate_thumbnails_task` finalization (app.py 737-743): the `except`
block writes the error status, but the `finally` block, after releasing
`thumbnail_generation_lock`, unconditionally overwrites the status record
with `idle`/`"Done."`. -/
def thumbnailTaskOutcome (body : Except String Unit) : JobOutcome :=
  let statusAfterTry : JobStatus :=
    match body with
    | .ok _ => .running "generating"
    | .error m => .error m
  let _unobservable := statusAfterTry
  let statusAfterFinally := JobStatus.idle "Done."
  { status := statusAfterFinally, lockReleased := true }

/-! ## Watch-progress endpoint (`update_video_progress`, app.py 1366-1385) -/

structure ProgressResponse where
  success : Bool
  watched_duration : Int
  last_watched : Option Int
  deriving DecidableEq, Repr

/-- Result of one `POST /api/video/<id>/progress` call: the row after the
call, whether a commit happened, and the JSON body returned.
`duration_watched` is the already-int-parsed payload value (a parse failure
returns 400 before this logic runs); `now` is the current time. -/
def update_video_progress (v : Video) (duration_watched : Int) (now : Int) :
    Video × Bool × ProgressResponse :=
  if duration_watched ≥ 4 then
    let v' := { v with
      watched_duration := duration_watched
      last_watched := some now }
    (v', true, ⟨true, v'.watched_duration, v'.last_watched⟩)
  else
    (v, false, ⟨true, v.watched_duration, v.last_watched⟩)

/-! ## String helpers shared by the converter and the query engine -/

/-- Case-sensitive substring test (Python's `needle in hay`). -/
def strContainsSub (hay needle : String) : Bool :=
  (List.range (hay.data.length + 1)).any
    (fun i => needle.data.isPrefixOf (hay.data.drop i))

/-- Case-insensitive substring test, the model of the SQL
`column ILIKE '%needle%'` predicate the query engine issues (the relational
store is an external collaborator assumed to provide LIKE predicates). -/
def icontains (hay needle : String) : Bool :=
  strContainsSub hay.toLower needle.toLower

/-- Python `str.isdigit` on ASCII digit strings: non-empty and all digits. -/
def pyIsDigit (s : String) : Bool :=
  !s.isEmpty && s.all Char.isDigit

/-- Python `sep.join(parts)`. -/
def pyJoin (sep : String) : List String → String
  | [] => ""
  | [x] => x
  | x :: y :: rest => x ++ sep ++ pyJoin sep (y :: rest)

/-! ## Subtitle converter (`srt_to_vtt`, app.py 633-654)

The `while` loops are rendered as recursion over the remaining suffix of
the split line list: the loop only ever reads `lines[i]` for the current
`i` onward, and every outer iteration strictly advances `i`. -/

/-- The inner `while i < len(lines) and lines[i].strip() != ''` loop:
returns the consumed cue-text lines (appended verbatim) and the remaining
suffix (beginning with the blank line that stopped the loop, if any). -/
def collectTextL : List String → List String × List String
  | [] => ([], [])
  | x :: xs =>
    if x.trim != "" then
      let r := collectTextL xs
      (x :: r.1, r.2)
    else ([], x :: xs)

theorem collectTextL_len (l : List String) :
    (collectTextL l).2.length ≤ l.length := by
  induction l with
  | nil => simp [collectTextL]
  | cons x xs ih =>
    simp only [collectTextL]
    split
    · simpa using Nat.le_succ_of_le ih
    · simp

mutual

/-- One outer `while i < len(lines)` iteration of `srt_to_vtt`: skip a cue
counter line (a pure digit string), bailing out when it was the last line
(the `continue` re-checks the loop condition and exits). -/
def vttLoopL (l : List String) : List String :=
  match l with
  | [] => []
  | line :: rest =>
    if pyIsDigit line then
      match rest with
      | [] => []
      | line1 :: rest1 => vttCue line1 rest1
    else
      vttCue line rest
termination_by 2 * l.length + 1
decreasing_by
  all_goals (simp_wf; omega)

/-- The rest of one outer iteration: emit the timestamp line (commas turned
into dots) when the current line contains `-->`, then the cue text lines,
then a blank separator, then continue after the blank that ended the cue
(`i += 1`). -/
def vttCue (cur : String) (rest : List String) : List String :=
  if strContainsSub cur "-->" then
    (cur.replace "," ".") ::
      ((collectTextL rest).1 ++ [""] ++
        vttLoopL (collectTextL rest).2.tail)
  else
    (collectTextL (cur :: rest)).1 ++ [""] ++
      vttLoopL (collectTextL (cur :: rest)).2.tail
termination_by 2 * rest.length + 2
decreasing_by
  · simp_wf
    have h1 := collectTextL_len rest
    omega
  · simp_wf
    have h1 := collectTextL_len (cur :: rest)
    simp only [List.length_cons] at h1
    omega

end

/-- `srt_to_vtt` body: strip, split on newlines, seed the output with the
`WEBVTT` header and a blank line, run the loop, join with newlines. -/
def srt_to_vtt (srt_content : String) : String :=
  let lines := srt_content.trim.splitOn "\n"
  pyJoin "\n" ("WEBVTT" :: "" :: vttLoopL lines)

/-- The `except` fallback document of `srt_to_vtt`. -/
def srt_to_vtt_fallback : String := "WEBVTT\n\n"

/-- Executable "begins with" test used to state the header property. -/
def strIsPrefix (p s : String) : Bool := p.data.isPrefixOf s.data

/-! ## Query engine (`get_videos`, app.py 923-1121)

The request parameters of one `/api/videos` call.  `viewId` is the HTTP
`viewId` argument in its id role (the SQL layer coerces the string to the
integer column type); `viewPath` is the same argument in its folder-path
role for the `folder` view.  `smartFilters` is the parsed
`smart_filters` JSON payload (`[]` when the argument is absent). -/

/-- A smart-playlist rule value as it arrives from JSON: a list of strings,
a bare string, or a number. -/
inductive RVal
  | vlist (xs : List String)
  | vstr (s : String)
  | vnum (n : Int)
  deriving DecidableEq, Repr

/-- One duck-typed smart-playlist rule dict; `none` models an absent key
(`f.get(...)` returning `None`). -/
structure Rule where
  type : Option String
  operator : Option String
  value : Option RVal
  deriving DecidableEq, Repr

structure QueryParams where
  viewType : String
  viewId : Option Int
  viewPath : Option String
  viewAuthor : Option String
  searchQuery : Option String
  filterShorts : String
  filterVR : String
  filterOptimized : String
  showImages : Bool
  showThumbnails : Bool
  smartFilters : List Rule
  deriving Repr

/-- Python truthiness of an optional rule value. -/
def pyTruthy : Option RVal → Bool
  | none => false
  | some (.vlist xs) => !xs.isEmpty
  | some (.vstr s) => !s.isEmpty
  | some (.vnum n) => !(n == 0)

/-- Python truthiness of an optional string. -/
def pyTruthyStr : Option String → Bool
  | none => false
  | some s => !s.isEmpty

/-- Python `int(str)` on an optionally signed digit string (`ValueError`
is `none`). -/
def pyParseInt (s : String) : Option Int :=
  let t := s.trim
  if t.isEmpty then none
  else if t.startsWith "-" then ((t.drop 1).toNat?).map (fun n => -(n : Int))
  else if t.startsWith "+" then ((t.drop 1).toNat?).map (fun n => (n : Int))
  else (t.toNat?).map (fun n => (n : Int))

/-- Python `int(v)` on a JSON value: numbers pass through, strings are
parsed, a list raises `TypeError` — which the rule-processing code catches
together with `ValueError`, so both map to `none`. -/
def pyInt : RVal → Option Int
  | .vnum n => some n
  | .vstr s => pyParseInt s
  | .vlist _ => none

/-- Python `list.extend(v)`: extending by a list appends it, extending by a
string appends its characters, extending by a number raises `TypeError`
(modelled as `Except.error`, which in `get_videos` escapes to the
top-level handler and fails the request). -/
def extendValues (acc : List String) : RVal → Except Unit (List String)
  | .vlist xs => .ok (acc ++ xs)
  | .vstr s => .ok (acc ++ s.data.map (fun c => String.mk [c]))
  | .vnum _ => .error ()

/-- The value-accumulation loop shared by the author and title-keyword
rule groups: every rule of the given type tag with a truthy value extends
one shared list. -/
def tagValues (tag : String) (filters : List Rule) :
    Except Unit (List String) :=
  filters.foldlM
    (fun acc f =>
      if f.type == some tag && pyTruthy f.value then
        extendValues acc (f.value.getD (.vnum 0))
      else .ok acc)
    ([] : List String)

/-- The author-value accumulation loop (app.py 1009-1012). -/
def authorValues (filters : List Rule) : Except Unit (List String) :=
  tagValues "author" filters

/-- The title-keyword accumulation loop (app.py 1018-1021). -/
def keywordValues (filters : List Rule) : Except Unit (List String) :=
  tagValues "title" filters

/-- One SQL clause of the smart-playlist filter. -/
inductive SmartClause
  | authorIn (names : List String)
  | titleKw (kws : List String)
  | durGt (n : Int)
  | durLt (n : Int)
  deriving DecidableEq, Repr

/-- The clause one duration rule contributes (app.py 1031-1040): requires a
truthy value and operator, an int-parsable value, and operator `gt` or
`lt`; anything else contributes nothing. -/
def durationClauseOf (f : Rule) : Option SmartClause :=
  if f.type == some "duration" && pyTruthy f.value && pyTruthyStr f.operator
  then
    match pyInt (f.value.getD (.vnum 0)) with
    | none => none
    | some n =>
      if f.operator == some "gt" then some (.durGt n)
      else if f.operator == some "lt" then some (.durLt n)
      else none
  else none

/-- The duration-clause loop in source order. -/
def durationClauses (filters : List Rule) : List SmartClause :=
  filters.foldl
    (fun acc f =>
      match durationClauseOf f with
      | some c => acc ++ [c]
      | none => acc)
    []

/-- The full `master_filter_conditions` list (app.py 1005-1043): one OR
group over all author values when any exist, one OR group over all title
keywords when any exist, then the duration clauses. -/
def buildSmartClauses (filters : List Rule) :
    Except Unit (List SmartClause) := do
  let avs ← authorValues filters
  let kvs ← keywordValues filters
  let c1 := if avs.isEmpty then [] else [SmartClause.authorIn avs]
  let c2 := if kvs.isEmpty then [] else [SmartClause.titleKw kvs]
  pure (c1 ++ c2 ++ durationClauses filters)

/-- Evaluation of one smart clause on a row (the SQL semantics of
`show_title.in_`, `title.ilike('%kw%')`, and the duration comparisons; an
`IN` or `ILIKE` over a NULL column is not satisfied). -/
def evalClause (v : Video) : SmartClause → Bool
  | .authorIn names =>
    match v.show_title with
    | some s => names.contains s
    | none => false
  | .titleKw kws => kws.any (fun k => icontains v.title k)
  | .durGt n => decide (v.duration > n)
  | .durLt n => decide (v.duration < n)

/-- The smart-playlist restriction: no extra filtering for an empty rule
list, otherwise the conjunction of the built clauses (also no extra
filtering when every rule degenerated to no clause, app.py 1042-1043). -/
def smartFilterPred (filters : List Rule) :
    Except Unit (Video → Bool) := do
  if filters.isEmpty then pure (fun _ => true)
  else do
    let cs ← buildSmartClauses filters
    pure (fun v => cs.all (evalClause v))

/-- The video ids of a standard playlist's membership rows. -/
def playlistMemberIds (db : DB) (pid : Int) : List Int :=
  (db.playlist_items.filter (fun it => it.playlist_id == pid)).map
    (fun it => it.video_id)

/-- The view-selector clause (app.py 970-1046).  Errors model aborted
requests: a `smart_playlist` view whose playlist id is unknown is a 404,
and an author/title rule whose value is a number raises `TypeError` into
the endpoint's top-level handler. -/
def viewPred (db : DB) (p : QueryParams) :
    Except Unit (Video → Bool) :=
  if p.viewType == "favorites" then
    pure (fun v => v.is_favorite)
  else if p.viewType == "watchLater" then
    pure (fun v => v.is_watch_later)
  else if p.viewType == "history" then
    pure (fun v => decide (v.watched_duration ≥ 4))
  else if p.viewType == "shorts" then
    pure (fun v => v.is_short)
  else if p.viewType == "optimized" then
    pure (fun v => v.transcoded_path.isSome)
  else if p.viewType == "VR180" then
    pure (fun v =>
      v.video_type == some "VR180_SBS" || v.video_type == some "VR180_TB")
  else if p.viewType == "VR360" then
    pure (fun v => v.video_type == some "VR360")
  else if p.viewType == "author" && pyTruthyStr p.viewAuthor then
    pure (fun v => v.show_title == p.viewAuthor)
  else if p.viewType == "folder" && pyTruthyStr p.viewPath then
    pure (fun v =>
      match v.relative_path, p.viewPath with
      | some rp, some f => rp == f || strIsPrefix (f ++ "/") rp
      | _, _ => false)
  else if p.viewType == "standard_playlist" && p.viewId.isSome then
    let pid := p.viewId.getD 0
    let ids := playlistMemberIds db pid
    let ids := if ids.isEmpty then [(-1 : Int)] else ids
    pure (fun v => ids.contains v.id)
  else if p.viewType == "smart_playlist" && p.viewId.isSome then
    if db.smart_playlist_ids.contains (p.viewId.getD 0) then
      smartFilterPred p.smartFilters
    else .error ()
  else if p.viewType == "video" && p.viewId.isSome then
    pure (fun v => v.id == p.viewId.getD 0)
  else
    pure (fun _ => true)

/-- The media-type base restriction (app.py 953-968): videos only by
default; with `showImages` also images, restricted to non-associated
thumbnails unless `showThumbnails`. -/
def basePred (p : QueryParams) (v : Video) : Bool :=
  if p.showImages then
    (v.media_type == "video") ||
      (if p.showThumbnails then v.media_type == "image"
       else v.media_type == "image" && v.is_associated_thumbnail == false)
  else
    v.media_type == "video"

/-- `isShortsSolo` (app.py 1049). -/
def isShortsSolo (p : QueryParams) : Bool :=
  p.filterShorts == "solo" && p.viewType != "shorts"

/-- `isVRSolo` (app.py 1050). -/
def isVRSolo (p : QueryParams) : Bool :=
  p.filterVR == "solo" && !(p.viewType == "VR180" || p.viewType == "VR360")

/-- `isOptimizedSolo` (app.py 1051). -/
def isOptimizedSolo (p : QueryParams) : Bool :=
  p.filterOptimized == "solo" && p.viewType != "optimized"

/-- `isSoloActive` (app.py 1052). -/
def isSoloActive (p : QueryParams) : Bool :=
  isShortsSolo p || isVRSolo p || isOptimizedSolo p

/-- The global shorts/VR/optimized toggle restriction (app.py 1048-1070):
when any applicable toggle is solo, the OR of the solo-selected category
predicates; only otherwise, the applicable hide toggles. -/
def togglesPred (p : QueryParams) (v : Video) : Bool :=
  (if isSoloActive p then
    ((if isShortsSolo p then [v.is_short] else []) ++
     (if isVRSolo p then [v.video_type.isSome] else []) ++
     (if isOptimizedSolo p then [v.transcoded_path.isSome] else [])).any id
  else true) &&
  (if !(isSoloActive p) then
    (if p.filterShorts == "hide" && p.viewType != "shorts" then
      v.is_short == false
    else true) &&
    (if p.filterVR == "hide" &&
        !(p.viewType == "VR180" || p.viewType == "VR360") then
      v.video_type == none
    else true) &&
    (if p.filterOptimized == "hide" && p.viewType != "optimized" then
      v.transcoded_path == none
    else true)
  else true)

/-- The free-text search restriction (app.py 1072-1081): case-insensitive
substring match against title, synopsis or show name. -/
def searchPred (p : QueryParams) (v : Video) : Bool :=
  match p.searchQuery with
  | none => true
  | some q =>
    if q.isEmpty then true
    else
      icontains v.title q ||
      (match v.summary with
       | some s => icontains s q
       | none => false) ||
      (match v.show_title with
       | some s => icontains s q
       | none => false)

/-- The whole filter predicate of one `/api/videos` request, in the
source's `where`-chaining order: media-type base, view clause, global
toggles, search. -/
def queryPred (db : DB) (p : QueryParams) :
    Except Unit (Video → Bool) := do
  let vp ← viewPred db p
  pure (fun v => basePred p v && vp v && togglesPred p v && searchPred p v)

/-- The (unsorted, unpaginated) result set of one `/api/videos` request:
the catalog rows satisfying the filter predicate. -/
def get_videos (db : DB) (p : QueryParams) : Except Unit (List Video) := do
  let pred ← queryPred db p
  pure (db.videos.filter pred)

/-- The non-view part of the request predicate ("the base view" of a claim:
everything the request filters by other than its view clause). -/
def restPred (p : QueryParams) (v : Video) : Bool :=
  basePred p v && togglesPred p v && searchPred p v

/-! ### Spec-side formulation of the toggle filters (for C2)

Clearly spec-derived definitions, following §4.4's wording: a toggle is
*applicable* when the active view is not already that exact category; if
any applicable toggle is solo the result is the OR of the solo-selected
categories' predicates and no hide toggle applies; otherwise each
applicable hide toggle subtracts its category. -/

def shortsApplicable (p : QueryParams) : Bool := p.viewType != "shorts"

def vrApplicable (p : QueryParams) : Bool :=
  !(p.viewType == "VR180" || p.viewType == "VR360")

def optimizedApplicable (p : QueryParams) : Bool :=
  p.viewType != "optimized"

def specSoloActive (p : QueryParams) : Bool :=
  p.filterShorts == "solo" && shortsApplicable p ||
  (p.filterVR == "solo" && vrApplicable p ||
    p.filterOptimized == "solo" && optimizedApplicable p)

/-! ### Concrete sample data for witnesses -/

/-- A plain catalog row all concrete witnesses start from. -/
def sampleVideo : Video :=
  { id := 1, video_path := "/m/a.mp4", title := "Alpha",
    show_title := some "A", summary := none, relative_path := none,
    thumbnail_path := none, show_poster_path := none,
    custom_thumbnail_path := none, subtitle_path := none,
    is_favorite := false, is_watch_later := false, last_watched := none,
    watched_duration := 0, is_short := false, duration := 700,
    transcoded_path := none, video_type := none, media_type := "video",
    is_associated_thumbnail := false }

def wV1 : Video := { sampleVideo with is_favorite := true }

def wV2 : Video :=
  { sampleVideo with
    id := 2, video_path := "/m/b.mp4", title := "Beta",
    is_favorite := true, is_short := true }

def wV3 : Video :=
  { sampleVideo with
    id := 3, video_path := "/m/c.mp4", title := "Gamma",
    is_short := true }

def wDB : DB :=
  { videos := [wV1, wV2, wV3],
    playlist_items := [⟨5, 2⟩, ⟨5, 3⟩],
    smart_playlist_ids := [1] }

/-- Default request: the `all` view with every filter off. -/
def baseParams : QueryParams :=
  { viewType := "all", viewId := none, viewPath := none, viewAuthor := none,
    searchQuery := none, filterShorts := "normal", filterVR := "normal",
    filterOptimized := "normal", showImages := false,
    showThumbnails := false, smartFilters := [] }

def wFavHideParams : QueryParams :=
  { baseParams with viewType := "favorites", filterShorts := "hide" }

def wShortsParams : QueryParams := { baseParams with viewType := "shorts" }

/-- Found-set for the pruning witness: only row 1's file remains on
disk. -/
def wFound : List String := ["/m/a.mp4"]

def wPruned : List Video := [wV2, wV3]

def wPrunedIds : List Int := [2, 3]

/-- A catalog row with duration 0, for the zero-valued-duration-rule
counterexample. -/
def cV : Video :=
  { sampleVideo with
    id := 9, video_path := "/m/z.mp4", title := "Zed", duration := 0 }

def cDB : DB :=
  { videos := [cV], playlist_items := [], smart_playlist_ids := [1] }

/-- A smart-playlist request whose only rule is
`{type:duration, operator:gt, value:0}`. -/
def cParams : QueryParams :=
  { baseParams with
    viewType := "smart_playlist", viewId := some 1,
    smartFilters := [⟨some "duration", some "gt", some (.vnum 0)⟩] }

/-- The claim's example rule set: authors `[A, B]` plus duration > 600. -/
def wSmartParams : QueryParams :=
  { baseParams with
    viewType := "smart_playlist", viewId := some 1,
    smartFilters :=
      [⟨some "author", none, some (.vlist ["A", "B"])⟩,
       ⟨some "duration", some "gt", some (.vnum 600)⟩] }

def wShortsSoloRes : List Video := [wV2, wV3]

def wShortsNormalRes : List Video := [wV2, wV3]

def specTogglesPred (p : QueryParams) (v : Video) : Bool :=
  if specSoloActive p then
    p.filterShorts == "solo" && shortsApplicable p && v.is_short ||
    (p.filterVR == "solo" && vrApplicable p && v.video_type.isSome ||
      p.filterOptimized == "solo" && optimizedApplicable p &&
        v.transcoded_path.isSome)
  else
    (!(p.filterShorts == "hide" && shortsApplicable p) ||
      v.is_short == false) &&
    (!(p.filterVR == "hide" && vrApplicable p) ||
      v.video_type == none) &&
    (!(p.filterOptimized == "hide" && optimizedApplicable p) ||
      v.transcoded_path == none)

/-! ### Spec-side formulation of the smart-playlist rule groups (for C1)

Following §4.4's wording: the union of all listed author values, the union
of all listed title keywords, over well-formed rules whose list-valued
fields are lists. -/

/-- The union (in rule order) of the listed values of all rules of one
type tag. -/
def specTagValues (tag : String) (filters : List Rule) : List String :=
  filters.foldl
    (fun acc f =>
      if f.type == some tag then
        acc ++
          (match f.value with
           | some (.vlist xs) => xs
           | _ => [])
      else acc)
    []

def specAuthorValues (filters : List Rule) : List String :=
  specTagValues "author" filters

def specKeywordValues (filters : List Rule) : List String :=
  specTagValues "title" filters

/-- A well-formed smart-playlist rule, as the claim's rule language
describes them: an author rule or a title-keyword rule carrying a list of
strings, or a duration rule with operator `gt` or `lt` and a numeric
value (any value, including zero). -/
def WfRule (f : Rule) : Prop :=
  (f.type = some "author" ∧ ∃ xs, f.value = some (.vlist xs)) ∨
  (f.type = some "title" ∧ ∃ xs, f.value = some (.vlist xs)) ∨
  (f.type = some "duration" ∧
    (f.operator = some "gt" ∨ f.operator = some "lt") ∧
    ∃ n : Int, f.value = some (.vnum n))

end VolumePlay

namespace VolumePlay

/-! ## Theorems -/

/-- C5 counterexample: with the stream tag and side-data both absent and the
disposition flag carrying 90, the specified priority chain yields 90 but the
code yields 0 — the disposition flag is never consulted. -/
theorem rotation_disposition_ignored :
    ffprobeRotation none none (some 90) = 0 ∧
    specRotation none none (some 90) = 90 ∧
    ffprobeRotation none none (some 90) ≠ specRotation none none (some 90) := by
  refine ⟨rfl, rfl, ?_⟩
  decide

/-- C5 (amended): for every successfully probed video the rotation value is
the first non-zero of the stream tag and the side-data rotation (zero if
neither yields a non-zero value); the disposition flag, though requested in
the ffprobe invocation, never influences the result. -/
theorem rotation_source_priority (tag side disposition : Option Int) :
    ffprobeRotation tag side disposition = specRotation tag side none ∧
    (∀ d₁ d₂ : Option Int,
      ffprobeRotation tag side d₁ = ffprobeRotation tag side d₂) := by
  constructor
  · simp only [ffprobeRotation, specRotation, Option.getD_none]
    by_cases h : tag.getD 0 = 0 <;> by_cases h2 : side.getD 0 = 0 <;>
      simp [h, h2]
  · intro d₁ d₂
    rfl

/-- C6: the effective dimensions swap coded width/height exactly when the
absolute rotation is 90 or 270, `is_short` holds exactly when effective
height exceeds effective width, and in particular coded 1080×1920 with
rotation 90 gives effective 1920×1080 and `is_short = false`, while the
same coded dimensions with rotation 0 give `is_short = true`. -/
theorem effective_dimensions_shorts (w h rot : Int) :
    ((rot.natAbs = 90 ∨ rot.natAbs = 270) →
      effectiveDimensions w h rot = (h, w)) ∧
    (¬(rot.natAbs = 90 ∨ rot.natAbs = 270) →
      effectiveDimensions w h rot = (w, h)) ∧
    (isShortOf w h rot = true ↔
      (effectiveDimensions w h rot).2 > (effectiveDimensions w h rot).1) ∧
    effectiveDimensions 1080 1920 90 = (1920, 1080) ∧
    isShortOf 1080 1920 90 = false ∧
    isShortOf 1080 1920 0 = true := by
  refine ⟨?_, ?_, ?_, by decide, by decide, by decide⟩
  · intro hc
    simp only [effectiveDimensions]
    rcases hc with hc | hc <;> simp [hc]
  · intro hc
    push_neg at hc
    simp only [effectiveDimensions]
    simp [hc.1, hc.2]
  · simp [isShortOf]

/-- C6 witness: concrete instantiations discharging both hypotheses of
`effective_dimensions_shorts`. -/
theorem effective_dimensions_shorts_witness :
    effectiveDimensions 100 200 (-270) = (200, 100) ∧
    effectiveDimensions 100 200 180 = (100, 200) :=
  ⟨(effective_dimensions_shorts 100 200 (-270)).1 (by decide),
   (effective_dimensions_shorts 100 200 180).2.1 (by decide)⟩

/-- C3: for every scan mode and every already-cataloged row the scan
touches, the user-state fields — favorite flag, watch-later flag, watch
progress, last-watched timestamp and the manually assigned content tag
(`video_type`) — are unchanged by the reconciliation step. -/
theorem user_state_preserved_on_rescan (full_scan : Bool) (v : Video)
    (d : ScanData) :
    (scanProcessExisting full_scan v d).is_favorite = v.is_favorite ∧
    (scanProcessExisting full_scan v d).is_watch_later = v.is_watch_later ∧
    (scanProcessExisting full_scan v d).watched_duration =
      v.watched_duration ∧
    (scanProcessExisting full_scan v d).last_watched = v.last_watched ∧
    (scanProcessExisting full_scan v d).video_type = v.video_type := by
  cases full_scan <;>
    exact ⟨rfl, rfl, rfl, rfl, rfl⟩

/-- C7: the scan, cleanup and transcode tasks leave an error status carrying
the escaped exception's message and release their lock — but the
thumbnail-fill task's `finally` block overwrites its error status with
`idle`/`"Done."`, so after a fatal thumbnail-task error the status record is
*not* in an error state (the lock is still released). -/
theorem job_fatal_error_semantics :
    scanTaskOutcome (.error "boom") =
      { status := .error "boom", lockReleased := true } ∧
    cleanupTaskOutcome (.error "boom") "unused" =
      { status := .error "boom", lockReleased := true } ∧
    transcodeTaskOutcome (.error "boom") =
      { status := .error "boom", lockReleased := true } ∧
    thumbnailTaskOutcome (.error "boom") =
      { status := .idle "Done.", lockReleased := true } ∧
    (thumbnailTaskOutcome (.error "boom")).status ≠ .error "boom" := by
  refine ⟨rfl, rfl, rfl, rfl, ?_⟩
  decide

/-- C9: a progress update below the 4-second threshold leaves the row
unchanged, performs no commit, and still answers success with the stored
values; an update at or above the threshold records the new position and
sets `last_watched` to the current time (with a commit). -/
theorem progress_update_threshold (v : Video) (duration_watched now : Int) :
    (duration_watched < 4 →
      update_video_progress v duration_watched now =
        (v, false, ⟨true, v.watched_duration, v.last_watched⟩)) ∧
    (4 ≤ duration_watched →
      update_video_progress v duration_watched now =
        ({ v with watched_duration := duration_watched,
                  last_watched := some now },
         true,
         ⟨true, duration_watched, some now⟩)) := by
  constructor
  · intro hlt
    simp [update_video_progress, not_le.mpr hlt]
  · intro hge
    simp [update_video_progress, hge]

/-- A conditional hide clause equals its guarded-disjunction form. -/
theorem if_guard_eq (c y : Bool) : (if c then y else true) = (!c || y) := by
  cases c <;> simp

/-- The OR over the collected solo predicates equals the guarded
disjunction of the three category predicates. -/
theorem solo_any_eq (a b c x y z : Bool) :
    (((if a then [x] else []) ++ (if b then [y] else []) ++
      (if c then [z] else [])).any id)
      = (a && x || (b && y || c && z)) := by
  cases a <;> cases b <;> cases c <;> simp

/-- A successful view clause determines the whole request's result set. -/
theorem get_videos_ok (db : DB) (p : QueryParams) (f : Video → Bool)
    (h : viewPred db p = .ok f) :
    get_videos db p = .ok (db.videos.filter
      (fun v => basePred p v && f v && togglesPred p v && searchPred p v)) := by
  simp [get_videos, queryPred, h, Bind.bind, Except.bind, pure, Except.pure]

/-- C2: the toggle filtering the query engine applies coincides with the
specification's solo/hide semantics (solo wins, hide only otherwise, each
toggle only when the view is not already that category); in particular a
`favorites` request with `filterShorts=hide` (and, per the solo-override
rule of the same claim, no other toggle solo) never returns a short, and
`filterShorts=solo` in the `shorts` view yields exactly the same result set
as `filterShorts=normal` — the shorts predicate is not applied again. -/
theorem global_toggle_filters :
    (∀ (p : QueryParams) (v : Video),
      togglesPred p v = specTogglesPred p v) ∧
    (∀ (db : DB) (p : QueryParams) (v : Video) (res : List Video),
      p.viewType = "favorites" → p.filterShorts = "hide" →
      p.filterVR ≠ "solo" → p.filterOptimized ≠ "solo" →
      get_videos db p = .ok res → v ∈ res → v.is_short = false) ∧
    (∀ (db : DB) (p : QueryParams) (res res' : List Video),
      p.viewType = "shorts" →
      get_videos db { p with filterShorts := "solo" } = .ok res →
      get_videos db { p with filterShorts := "normal" } = .ok res' →
      res = res') := by
  refine ⟨?_, ?_, ?_⟩
  · intro p v
    have hsa : specSoloActive p = isSoloActive p := by
      simp [specSoloActive, isSoloActive, isShortsSolo, isVRSolo,
        isOptimizedSolo, shortsApplicable, vrApplicable,
        optimizedApplicable, Bool.or_assoc]
    simp only [togglesPred, specTogglesPred, hsa]
    cases hA : isSoloActive p
    · simp only [Bool.false_eq_true, if_false, Bool.not_false, if_true,
        Bool.true_and, if_guard_eq]
      simp [isShortsSolo, shortsApplicable, vrApplicable,
        optimizedApplicable]
    · simp only [if_true, Bool.not_true, Bool.false_eq_true, if_false,
        Bool.and_true, solo_any_eq]
      simp [isShortsSolo, isVRSolo, isOptimizedSolo, shortsApplicable,
        vrApplicable, optimizedApplicable, Bool.and_assoc, Bool.or_assoc]
  · intro db p v res hvt hfs hvr hopt hres hmem
    have hvp : viewPred db p = .ok (fun w => w.is_favorite) := by
      simp [viewPred, hvt, pure, Except.pure]
    rw [get_videos_ok db p _ hvp] at hres
    rw [Except.ok.injEq] at hres
    rw [← hres] at hmem
    obtain ⟨hv, hpred⟩ := List.mem_filter.mp hmem
    simp only [Bool.and_eq_true] at hpred
    have htog := hpred.1.2
    have h1 : isShortsSolo p = false := by simp [isShortsSolo, hfs]
    have h2 : isVRSolo p = false := by simp [isVRSolo, hvr]
    have h3 : isOptimizedSolo p = false := by
      simp [isOptimizedSolo, hopt]
    have hsa : isSoloActive p = false := by
      simp [isSoloActive, h1, h2, h3]
    simp only [togglesPred, hsa, hfs, hvt] at htog
    simp at htog
    exact htog.1.1
  · intro db p res res' hvt hres hres'
    have hvp1 : viewPred db { p with filterShorts := "solo" } =
        .ok (fun w => w.is_short) := by
      simp [viewPred, hvt, pure, Except.pure]
    have hvp2 : viewPred db { p with filterShorts := "normal" } =
        .ok (fun w => w.is_short) := by
      simp [viewPred, hvt, pure, Except.pure]
    rw [get_videos_ok _ _ _ hvp1, Except.ok.injEq] at hres
    rw [get_videos_ok _ _ _ hvp2, Except.ok.injEq] at hres'
    rw [← hres, ← hres']
    apply List.filter_congr
    intro w _
    have htg : togglesPred { p with filterShorts := "solo" } w =
        togglesPred { p with filterShorts := "normal" } w := by
      simp [togglesPred, isSoloActive, isShortsSolo, isVRSolo,
        isOptimizedSolo, hvt]
    have hbp : basePred { p with filterShorts := "solo" } w =
        basePred { p with filterShorts := "normal" } w := by
      simp [basePred]
    have hsp : searchPred { p with filterShorts := "solo" } w =
        searchPred { p with filterShorts := "normal" } w := by
      simp [searchPred]
    rw [htg, hbp, hsp]

/-- C2 witness: all three parts of `global_toggle_filters` at concrete
requests against a concrete catalog — the toggle-filter equivalence at the
favorites/hide request, the favorites/hide request returning only non-short
rows, and the shorts view's solo/normal result sets coinciding. -/
theorem global_toggle_filters_witness :
    togglesPred wFavHideParams wV1 = specTogglesPred wFavHideParams wV1 ∧
    wV1.is_short = false ∧
    wShortsSoloRes = wShortsNormalRes :=
  ⟨global_toggle_filters.1 wFavHideParams wV1,
   global_toggle_filters.2.1 wDB wFavHideParams wV1 [wV1] rfl rfl
     (by decide) (by decide) (by exact rfl) (by decide),
   global_toggle_filters.2.2 wDB wShortsParams wShortsSoloRes
     wShortsNormalRes rfl (by exact rfl) (by exact rfl)⟩

/-- C8: a `standard_playlist` view request returns exactly the rows that
satisfy the rest of the request's predicates and are members of the named
playlist, and a playlist with no memberships yields the empty result — never
the full catalog (the engine substitutes the impossible id `-1`; catalog
ids are positive). -/
theorem standard_playlist_view (db : DB) (p : QueryParams) (v : Video)
    (pid : Int) (res : List Video)
    (hvt : p.viewType = "standard_playlist") (hid : p.viewId = some pid)
    (hpos : ∀ w ∈ db.videos, 1 ≤ w.id)
    (hres : get_videos db p = .ok res) :
    (v ∈ res ↔
      v ∈ db.videos ∧ restPred p v = true ∧
        v.id ∈ playlistMemberIds db pid) ∧
    (playlistMemberIds db pid = [] → res = []) := by
  have hvp : viewPred db p = .ok (fun w =>
      (if (playlistMemberIds db pid).isEmpty then [(-1 : Int)]
       else playlistMemberIds db pid).contains w.id) := by
    simp [viewPred, hvt, hid, pure, Except.pure]
  rw [get_videos_ok db p _ hvp, Except.ok.injEq] at hres
  subst hres
  constructor
  · rw [List.mem_filter]
    constructor
    · rintro ⟨hv, hpred⟩
      simp only [Bool.and_eq_true] at hpred
      obtain ⟨⟨⟨hb, hc⟩, ht⟩, hs⟩ := hpred
      refine ⟨hv, ?_, ?_⟩
      · simp only [restPred, Bool.and_eq_true]
        exact ⟨⟨hb, ht⟩, hs⟩
      · rcases hemp : (playlistMemberIds db pid).isEmpty with _ | _
        · rw [hemp] at hc
          simp only [if_false, Bool.false_eq_true] at hc
          exact List.mem_of_elem_eq_true hc
        · rw [hemp] at hc
          simp only [if_true] at hc
          have h1 := List.mem_of_elem_eq_true hc
          simp at h1
          have h2 := hpos v hv
          omega
    · rintro ⟨hv, hrest, hmemids⟩
      refine ⟨hv, ?_⟩
      simp only [restPred, Bool.and_eq_true] at hrest
      obtain ⟨⟨hb, ht⟩, hs⟩ := hrest
      simp only [Bool.and_eq_true]
      refine ⟨⟨⟨hb, ?_⟩, ht⟩, hs⟩
      have hne : (playlistMemberIds db pid).isEmpty = false := by
        rcases h : (playlistMemberIds db pid).isEmpty with _ | _
        · rfl
        · rw [List.isEmpty_iff] at h
          rw [h] at hmemids
          cases hmemids
      rw [hne]
      simp only [Bool.false_eq_true, if_false]
      exact List.elem_eq_true_of_mem hmemids
  · intro hemp
    have hemp' : (playlistMemberIds db pid).isEmpty = true :=
      List.isEmpty_iff.mpr hemp
    apply (List.filter_eq_nil_iff).mpr
    intro w hw
    simp only [hemp', if_true, Bool.and_eq_true]
    rintro ⟨⟨⟨hb, hcontains⟩, ht⟩, hs⟩
    have h1 := List.mem_of_elem_eq_true hcontains
    simp at h1
    have h2 := hpos w hw
    omega

/-- C8 witness: `standard_playlist_view` applied twice against the sample
catalog — playlist 5 (members: rows 2 and 3) and the empty playlist 6. -/
theorem standard_playlist_view_witness :
    (wV2 ∈ ([wV2, wV3] : List Video) ↔
      wV2 ∈ wDB.videos ∧
        restPred { baseParams with
          viewType := "standard_playlist", viewId := some 5 } wV2 = true ∧
        wV2.id ∈ playlistMemberIds wDB 5) ∧
    (playlistMemberIds wDB 6 = [] → ([] : List Video) = []) :=
  ⟨(standard_playlist_view wDB
      { baseParams with viewType := "standard_playlist", viewId := some 5 }
      wV2 5 [wV2, wV3] rfl rfl (by decide) (by exact rfl)).1,
   (standard_playlist_view wDB
      { baseParams with viewType := "standard_playlist", viewId := some 6 }
      wV1 6 [] rfl rfl (by decide) (by exact rfl)).2⟩

/-- Binding a successful `Except` computation just applies the
continuation. -/
theorem except_ok_bind {α β : Type} (a : α) (k : α → Except Unit β) :
    (Except.ok a >>= k) = k a := rfl

/-- Over rules whose tag-typed values are string lists, the engine's
truthiness-guarded accumulation loop succeeds and computes the plain union
of the listed values. -/
theorem tagValues_wf_aux (tag : String) (l : List Rule)
    (hwf : ∀ f ∈ l, f.type = some tag → ∃ xs, f.value = some (.vlist xs)) :
    ∀ acc : List String,
      (List.foldlM
        (fun acc f =>
          if f.type == some tag && pyTruthy f.value then
            extendValues acc (f.value.getD (.vnum 0))
          else .ok acc)
        acc l : Except Unit (List String))
      = .ok (List.foldl
          (fun acc f =>
            if f.type == some tag then
              acc ++
                (match f.value with
                 | some (.vlist xs) => xs
                 | _ => [])
            else acc)
          acc l) := by
  induction l with
  | nil => intro acc; rfl
  | cons f l ih =>
    intro acc
    have hrest : ∀ g ∈ l, g.type = some tag →
        ∃ xs, g.value = some (.vlist xs) :=
      fun g hg => hwf g (List.mem_cons_of_mem f hg)
    rw [List.foldlM_cons, List.foldl_cons]
    by_cases hty : f.type = some tag
    · obtain ⟨xs, hval⟩ := hwf f (List.mem_cons_self f l) hty
      rw [hty, hval]
      rcases hxs : xs.isEmpty with _ | _
      · have htr : pyTruthy (some (RVal.vlist xs)) = true := by
          simp [pyTruthy, hxs]
        simp only [beq_self_eq_true, htr, Bool.and_self, if_true,
          Option.getD_some, extendValues, except_ok_bind]
        exact ih hrest (acc ++ xs)
      · have hxs' : xs = [] := List.isEmpty_iff.mp hxs
        subst hxs'
        simp only [pyTruthy, List.isEmpty_nil, Bool.not_true,
          Bool.and_false, Bool.false_eq_true, if_false, except_ok_bind,
          beq_self_eq_true, if_true, List.append_nil]
        exact ih hrest acc
    · have hbe : (f.type == some tag) = false := beq_eq_false_iff_ne.mpr hty
      simp only [hbe, Bool.false_and, Bool.false_eq_true, if_false,
        except_ok_bind]
      exact ih hrest acc

/-- The two accumulation loops, on well-formed rules, compute the spec's
unions. -/
theorem tagValues_wf (tag : String) (l : List Rule)
    (hwf : ∀ f ∈ l, f.type = some tag → ∃ xs, f.value = some (.vlist xs)) :
    tagValues tag l = .ok (specTagValues tag l) := by
  rw [tagValues, specTagValues]
  exact tagValues_wf_aux tag l hwf []

/-- The duration-clause loop is the filterMap of the per-rule clause. -/
theorem durationClauses_eq (l : List Rule) :
    durationClauses l = l.filterMap durationClauseOf := by
  suffices h : ∀ acc, List.foldl
      (fun acc f =>
        match durationClauseOf f with
        | some c => acc ++ [c]
        | none => acc)
      acc l = acc ++ l.filterMap durationClauseOf by
    simpa [durationClauses] using h []
  induction l with
  | nil => intro acc; simp
  | cons f l ih =>
    intro acc
    rw [List.foldl_cons, List.filterMap_cons]
    cases h : durationClauseOf f
    · simp only [h]
      rw [ih]
    · simp only [h]
      rw [ih]
      simp

/-- A well-formed `gt` duration rule contributes exactly its `>` clause. -/
theorem durationClauseOf_gt (f : Rule) (n : Int)
    (hty : f.type = some "duration") (hop : f.operator = some "gt")
    (hval : f.value = some (.vnum n)) (hn : n ≠ 0) :
    durationClauseOf f = some (.durGt n) := by
  have hop' : pyTruthyStr (some "gt") = true := by decide
  simp [durationClauseOf, hty, hop, hval, pyTruthy, pyInt, hn, hop']

/-- A well-formed `lt` duration rule contributes exactly its `<` clause. -/
theorem durationClauseOf_lt (f : Rule) (n : Int)
    (hty : f.type = some "duration") (hop : f.operator = some "lt")
    (hval : f.value = some (.vnum n)) (hn : n ≠ 0) :
    durationClauseOf f = some (.durLt n) := by
  have hop' : pyTruthyStr (some "lt") = true := by decide
  simp [durationClauseOf, hty, hop, hval, pyTruthy, pyInt, hn, hop']

/-- A rule that is not a duration rule contributes no duration clause. -/
theorem durationClauseOf_nondur (f : Rule)
    (hty : f.type ≠ some "duration") :
    durationClauseOf f = none := by
  have hbe : (f.type == some "duration") = false := beq_eq_false_iff_ne.mpr hty
  simp [durationClauseOf, hbe]

/-- A duration rule whose value is 0 is dropped by the engine's Python
truthiness guard (`f.get('value')` is falsy) and contributes no clause. -/
theorem durationClauseOf_zero (f : Rule)
    (hval : f.value = some (.vnum 0)) :
    durationClauseOf f = none := by
  simp [durationClauseOf, hval, pyTruthy]

/-- Over well-formed rules, satisfying every duration clause is exactly
the amended per-rule condition: a clause is applied for every duration
rule with a *non-zero* value; a zero-valued rule is dropped by the
truthiness guard and constrains nothing. -/
theorem durationAll_iff (l : List Rule) (v : Video)
    (hwf : ∀ f ∈ l, WfRule f) :
    ((durationClauses l).all (evalClause v) = true) ↔
    (∀ f ∈ l, f.type = some "duration" →
      ∀ n : Int, f.value = some (.vnum n) → n ≠ 0 →
        (f.operator = some "gt" → v.duration > n) ∧
        (f.operator = some "lt" → v.duration < n)) := by
  rw [durationClauses_eq, List.all_eq_true]
  constructor
  · intro h f hf hty n hval hn
    rcases hwf f hf with ⟨h1, _⟩ | ⟨h1, _⟩ | ⟨_, hop, m, hm⟩
    · rw [h1] at hty; exact absurd hty (by decide)
    · rw [h1] at hty; exact absurd hty (by decide)
    · have hmn : m = n := by
        rw [hval] at hm
        simpa using hm.symm
      subst hmn
      rcases hop with hgt | hlt
      · constructor
        · intro _
          have hc := h (.durGt m)
            (List.mem_filterMap.mpr
              ⟨f, hf, durationClauseOf_gt f m hty hgt hm hn⟩)
          simpa [evalClause] using hc
        · intro hlt'
          rw [hgt] at hlt'
          exact absurd hlt' (by decide)
      · constructor
        · intro hgt'
          rw [hlt] at hgt'
          exact absurd hgt' (by decide)
        · intro _
          have hc := h (.durLt m)
            (List.mem_filterMap.mpr
              ⟨f, hf, durationClauseOf_lt f m hty hlt hm hn⟩)
          simpa [evalClause] using hc
  · intro h c hc
    obtain ⟨f, hf, hcf⟩ := List.mem_filterMap.mp hc
    rcases hwf f hf with ⟨h1, _⟩ | ⟨h1, _⟩ | ⟨h1, hop, m, hm⟩
    · rw [durationClauseOf_nondur f (by rw [h1]; decide)] at hcf
      cases hcf
    · rw [durationClauseOf_nondur f (by rw [h1]; decide)] at hcf
      cases hcf
    · by_cases hm0 : m = 0
      · rw [durationClauseOf_zero f (by rw [hm, hm0])] at hcf
        cases hcf
      · have hfm := h f hf h1 m hm hm0
        rcases hop with hgt | hlt
        · rw [durationClauseOf_gt f m h1 hgt hm hm0] at hcf
          rw [Option.some.injEq] at hcf
          subst hcf
          simpa [evalClause] using hfm.1 hgt
        · rw [durationClauseOf_lt f m h1 hlt hm hm0] at hcf
          rw [Option.some.injEq] at hcf
          subst hcf
          simpa [evalClause] using hfm.2 hlt

/-- The author OR-group (present iff any author value exists) is
satisfied exactly when the show name is among the collected values. -/
theorem authorClause_iff (avs : List String) (v : Video) :
    ((if avs.isEmpty then ([] : List SmartClause)
      else [.authorIn avs]).all (evalClause v) = true) ↔
    (avs ≠ [] → ∃ s, v.show_title = some s ∧ s ∈ avs) := by
  rcases h : avs.isEmpty with _ | _
  · have hne : avs ≠ [] := by
      intro hh
      rw [hh] at h
      cases h
    simp only [h, Bool.false_eq_true, if_false, List.all_cons,
      List.all_nil, Bool.and_true]
    constructor
    · intro he _
      cases hst : v.show_title with
      | none => rw [evalClause, hst] at he; cases he
      | some s =>
        rw [evalClause, hst] at he
        exact ⟨s, rfl, List.mem_of_elem_eq_true he⟩
    · intro hex
      obtain ⟨s, hs1, hs2⟩ := hex hne
      rw [evalClause, hs1]
      exact List.elem_eq_true_of_mem hs2
  · have h' : avs = [] := List.isEmpty_iff.mp h
    subst h'
    simp

/-- The title-keyword OR-group (present iff any keyword exists) is
satisfied exactly when some keyword case-insensitively occurs in the
title. -/
theorem kwClause_iff (kvs : List String) (v : Video) :
    ((if kvs.isEmpty then ([] : List SmartClause)
      else [.titleKw kvs]).all (evalClause v) = true) ↔
    (kvs ≠ [] → ∃ k ∈ kvs, icontains v.title k = true) := by
  rcases h : kvs.isEmpty with _ | _
  · have hne : kvs ≠ [] := by
      intro hh
      rw [hh] at h
      cases h
    simp only [h, Bool.false_eq_true, if_false, List.all_cons,
      List.all_nil, Bool.and_true, evalClause, List.any_eq_true]
    constructor
    · intro he _
      exact he
    · intro hex
      exact hex hne
  · have h' : kvs = [] := List.isEmpty_iff.mp h
    subst h'
    simp

/-- C1 counterexample: the claim as stated fails for a duration rule with
value 0 — the request whose only rule is
`{type:duration, operator:gt, value:0}` (app.py 1032's `f.get('value')`
truthiness guard drops it) returns the duration-0 row, although the claim
requires every returned item to satisfy `duration > 0`. -/
theorem smart_playlist_zero_duration_counterexample :
    cParams.smartFilters =
      [⟨some "duration", some "gt", some (.vnum 0)⟩] ∧
    get_videos cDB cParams = .ok [cV] ∧
    ¬(cV.duration > 0) :=
  ⟨rfl, rfl, by decide⟩

/-- C1 (amended): a smart-playlist request over a non-empty, well-formed
rule list returns exactly the base-view rows satisfying the conjunction
of: show name in the union of the author-rule values (when that union is
non-empty), a case-insensitive title match of some title-keyword value
(when any), and, per duration rule with operator `gt` (resp. `lt`) and
*non-zero* value `v`, the clause `duration > v` (resp. `duration < v`) —
a duration rule whose value is 0 is dropped by the engine's truthiness
guard and contributes no clause. -/
theorem smart_playlist_rule_combination
    (db : DB) (p : QueryParams) (v : Video) (pid : Int) (res : List Video)
    (hvt : p.viewType = "smart_playlist") (hid : p.viewId = some pid)
    (hex : pid ∈ db.smart_playlist_ids)
    (hne : p.smartFilters ≠ [])
    (hwf : ∀ f ∈ p.smartFilters, WfRule f)
    (hres : get_videos db p = .ok res) :
    v ∈ res ↔
      v ∈ db.videos ∧ restPred p v = true ∧
      (specAuthorValues p.smartFilters ≠ [] →
        ∃ s, v.show_title = some s ∧
          s ∈ specAuthorValues p.smartFilters) ∧
      (specKeywordValues p.smartFilters ≠ [] →
        ∃ k ∈ specKeywordValues p.smartFilters,
          icontains v.title k = true) ∧
      (∀ f ∈ p.smartFilters, f.type = some "duration" →
        ∀ n : Int, f.value = some (.vnum n) → n ≠ 0 →
          (f.operator = some "gt" → v.duration > n) ∧
          (f.operator = some "lt" → v.duration < n)) := by
  have hwa : ∀ f ∈ p.smartFilters, f.type = some "author" →
      ∃ xs, f.value = some (.vlist xs) := by
    intro f hf hty
    rcases hwf f hf with ⟨_, hx⟩ | ⟨h1, _⟩ | ⟨h1, _, _⟩
    · exact hx
    · rw [h1] at hty; exact absurd hty (by decide)
    · rw [h1] at hty; exact absurd hty (by decide)
  have hwt : ∀ f ∈ p.smartFilters, f.type = some "title" →
      ∃ xs, f.value = some (.vlist xs) := by
    intro f hf hty
    rcases hwf f hf with ⟨h1, _⟩ | ⟨_, hx⟩ | ⟨h1, _, _⟩
    · rw [h1] at hty; exact absurd hty (by decide)
    · exact hx
    · rw [h1] at hty; exact absurd hty (by decide)
  have hav : authorValues p.smartFilters =
      .ok (specAuthorValues p.smartFilters) := by
    rw [authorValues, specAuthorValues]
    exact tagValues_wf "author" p.smartFilters hwa
  have hkv : keywordValues p.smartFilters =
      .ok (specKeywordValues p.smartFilters) := by
    rw [keywordValues, specKeywordValues]
    exact tagValues_wf "title" p.smartFilters hwt
  have hbuild : buildSmartClauses p.smartFilters = .ok
      ((if (specAuthorValues p.smartFilters).isEmpty then []
        else [SmartClause.authorIn (specAuthorValues p.smartFilters)]) ++
       (if (specKeywordValues p.smartFilters).isEmpty then []
        else [SmartClause.titleKw (specKeywordValues p.smartFilters)]) ++
       durationClauses p.smartFilters) := by
    rw [buildSmartClauses, hav, except_ok_bind, hkv, except_ok_bind]
    rfl
  have hnem : p.smartFilters.isEmpty = false := by
    rcases hh : p.smartFilters.isEmpty with _ | _
    · rfl
    · exact absurd (List.isEmpty_iff.mp hh) hne
  have hsfp : smartFilterPred p.smartFilters = .ok (fun w =>
      ((if (specAuthorValues p.smartFilters).isEmpty then []
        else [SmartClause.authorIn (specAuthorValues p.smartFilters)]) ++
       (if (specKeywordValues p.smartFilters).isEmpty then []
        else [SmartClause.titleKw (specKeywordValues p.smartFilters)]) ++
       durationClauses p.smartFilters).all (evalClause w)) := by
    rw [smartFilterPred]
    simp only [hnem, Bool.false_eq_true, if_false]
    rw [hbuild, except_ok_bind]
    rfl
  have hctn : db.smart_playlist_ids.contains pid = true :=
    List.elem_eq_true_of_mem hex
  have hvp : viewPred db p = .ok (fun w =>
      ((if (specAuthorValues p.smartFilters).isEmpty then []
        else [SmartClause.authorIn (specAuthorValues p.smartFilters)]) ++
       (if (specKeywordValues p.smartFilters).isEmpty then []
        else [SmartClause.titleKw (specKeywordValues p.smartFilters)]) ++
       durationClauses p.smartFilters).all (evalClause w)) := by
    rw [viewPred]
    simp only [hvt, hid]
    simp only [Option.getD_some, hctn]
    simp [hsfp]
  rw [get_videos_ok db p _ hvp, Except.ok.injEq] at hres
  subst hres
  rw [List.mem_filter]
  constructor
  · rintro ⟨hv, hpred⟩
    simp only [Bool.and_eq_true] at hpred
    obtain ⟨⟨⟨hb, hcs⟩, ht⟩, hs⟩ := hpred
    simp only [List.all_append, Bool.and_eq_true] at hcs
    obtain ⟨⟨hA, hB⟩, hD⟩ := hcs
    refine ⟨hv, ?_, ?_, ?_, ?_⟩
    · simp only [restPred, Bool.and_eq_true]
      exact ⟨⟨hb, ht⟩, hs⟩
    · exact (authorClause_iff _ v).mp hA
    · exact (kwClause_iff _ v).mp hB
    · exact (durationAll_iff _ v hwf).mp hD
  · rintro ⟨hv, hrest, hA, hB, hD⟩
    refine ⟨hv, ?_⟩
    simp only [restPred, Bool.and_eq_true] at hrest
    obtain ⟨⟨hb, ht⟩, hs⟩ := hrest
    simp only [Bool.and_eq_true, List.all_append]
    exact ⟨⟨⟨hb, ⟨⟨(authorClause_iff _ v).mpr hA,
      (kwClause_iff _ v).mpr hB⟩, (durationAll_iff _ v hwf).mpr hD⟩⟩,
      ht⟩, hs⟩

/-- C1 witness: the claim's own example — rule set
`[{type:author, value:[A,B]}, {type:duration, operator:gt, value:600}]` —
run against the sample catalog (every row has show `A` and duration 700,
so all three rows are returned). -/
theorem smart_playlist_rule_combination_witness :
    wV1 ∈ ([wV1, wV2, wV3] : List Video) ↔
      wV1 ∈ wDB.videos ∧ restPred wSmartParams wV1 = true ∧
      (specAuthorValues wSmartParams.smartFilters ≠ [] →
        ∃ s, wV1.show_title = some s ∧
          s ∈ specAuthorValues wSmartParams.smartFilters) ∧
      (specKeywordValues wSmartParams.smartFilters ≠ [] →
        ∃ k ∈ specKeywordValues wSmartParams.smartFilters,
          icontains wV1.title k = true) ∧
      (∀ f ∈ wSmartParams.smartFilters, f.type = some "duration" →
        ∀ n : Int, f.value = some (.vnum n) → n ≠ 0 →
          (f.operator = some "gt" → wV1.duration > n) ∧
          (f.operator = some "lt" → wV1.duration < n)) :=
  smart_playlist_rule_combination wDB wSmartParams wV1 1 [wV1, wV2, wV3]
    rfl rfl (by decide) (by decide)
    (by
      intro f hf
      have hf' : f = (⟨some "author", none, some (.vlist ["A", "B"])⟩ : Rule)
          ∨ f = (⟨some "duration", some "gt", some (.vnum 600)⟩ : Rule) := by
        simpa [wSmartParams, baseParams] using hf
      rcases hf' with rfl | rfl
      · exact Or.inl ⟨rfl, ⟨["A", "B"], rfl⟩⟩
      · exact Or.inr (Or.inr ⟨rfl, Or.inl rfl, ⟨600, rfl⟩⟩))
    (by exact rfl)

theorem applyDBOps_nil (st : DB) : applyDBOps st [] = st := rfl

theorem applyDBOps_cons (st : DB) (a : DBOp) (l : List DBOp) :
    applyDBOps st (a :: l) = applyDBOps (applyDBOp st a) l := rfl

theorem applyDBOps_append (st : DB) (l1 l2 : List DBOp) :
    applyDBOps st (l1 ++ l2) = applyDBOps (applyDBOps st l1) l2 :=
  List.foldl_append _ _ _ _

/-- With pairwise-distinct source paths (the catalog's unique constraint),
building the path-keyed dict keeps the row list as is. -/
theorem buildPathMap_nodup (rows : List Video)
    (h : (rows.map (fun v => v.video_path)).Nodup) :
    buildPathMap rows = rows := by
  suffices haux : ∀ (l : List Video) (acc : List Video),
      ((acc ++ l).map (fun v : Video => v.video_path)).Nodup →
      List.foldl
        (fun acc v =>
          if acc.any (fun w => w.video_path == v.video_path) then
            acc.map (fun w => if w.video_path == v.video_path then v else w)
          else acc ++ [v])
        acc l = acc ++ l by
    rw [buildPathMap]
    simpa using haux rows [] (by simpa using h)
  intro l
  induction l with
  | nil => intro acc _; simp
  | cons v rows ih =>
    intro acc hnd
    rw [List.foldl_cons]
    have hdisj : ∀ w ∈ acc, w.video_path ≠ v.video_path := by
      intro w hw heq
      rw [List.map_append, List.map_cons] at hnd
      have hd := List.disjoint_of_nodup_append hnd
      exact hd (List.mem_map_of_mem _ hw) (by rw [heq]; exact List.mem_cons_self _ _)
    have hany : (acc.any (fun w => w.video_path == v.video_path)) = false := by
      rw [List.any_eq_false]
      intro w hw hbeq
      exact hdisj w hw (by simpa using hbeq)
    simp only [hany, Bool.false_eq_true, if_false]
    have hre : acc ++ [v] ++ rows = acc ++ v :: rows := by simp
    have := ih (acc ++ [v]) (by rw [hre]; exact hnd)
    rw [hre] at this
    exact this

/-- Folding the per-row video deletions filters the catalog by the deleted
ids. -/
theorem applyDeletes (st : DB) (rows : List Video) :
    applyDBOps st (rows.map (fun v => DBOp.deleteVideo v.id)) =
      { st with videos :=
          st.videos.filter (fun w => !(rows.any (fun v => w.id == v.id))) }
    := by
  induction rows generalizing st with
  | nil => simp [applyDBOps_nil]
  | cons v rows ih =>
    rw [List.map_cons, applyDBOps_cons, ih]
    simp only [applyDBOp]
    congr 1
    rw [List.filter_filter]
    apply List.filter_congr
    intro w _
    simp only [List.any_cons, Bool.not_or]
    rw [Bool.and_comm]

/-- With pairwise-distinct catalog ids (the primary key), a row's id is
among the pruned ids exactly when the row's path is absent from the found
set. -/
theorem mem_pruned_ids_iff (db : DB) (found : List String)
    (hid : (db.videos.map (fun v => v.id)).Nodup)
    (w : Video) (hw : w ∈ db.videos) :
    ((db.videos.filter (fun v => !found.contains v.video_path)).any
      (fun v => w.id == v.id))
    = !(found.contains w.video_path) := by
  rcases hfc : found.contains w.video_path with _ | _
  · have hwD : w ∈ db.videos.filter
        (fun v => !found.contains v.video_path) := by
      rw [List.mem_filter]
      exact ⟨hw, by rw [hfc]; rfl⟩
    simp only [Bool.not_false]
    rw [List.any_eq_true]
    exact ⟨w, hwD, by simp⟩
  · simp only [Bool.not_true]
    rw [List.any_eq_false]
    intro v hv hbeq
    rw [List.mem_filter] at hv
    obtain ⟨hv1, hv2⟩ := hv
    have heq : w.id = v.id := by simpa using hbeq
    have hwv : w = v := List.inj_on_of_nodup_map hid hw hv1 heq
    rw [← hwv, hfc] at hv2
    cases hv2

/-- C4: pruning deletes exactly the catalog rows whose path is in the
catalog but not in the found set — memberships first in one statement, then
each row, with the best-effort asset removals never affecting the database
effects — commits once at the very end, returns the number of rows removed,
and leaves no playlist item referencing a pruned row. -/
theorem pruning_contract (fsE fsF fsE' fsF' : String → Bool) (db : DB)
    (found : List String) (D : List Video) (ids : List Int)
    (hnd : (db.videos.map (fun v => v.video_path)).Nodup)
    (hid : (db.videos.map (fun v => v.id)).Nodup)
    (hD : D = db.videos.filter (fun v => !found.contains v.video_path))
    (hids : ids = D.map (fun v => v.id)) :
    ((applyDBOps db (prune_missing_videos fsE fsF db found).ops).videos =
      db.videos.filter (fun v => found.contains v.video_path)) ∧
    ((applyDBOps db
        (prune_missing_videos fsE fsF db found).ops).playlist_items =
      db.playlist_items.filter (fun it => !ids.contains it.video_id)) ∧
    ((prune_missing_videos fsE fsF db found).deleted_count = D.length) ∧
    (D = [] → (prune_missing_videos fsE fsF db found).ops = []) ∧
    (D ≠ [] → (prune_missing_videos fsE fsF db found).ops =
      DBOp.deletePlaylistItems ids ::
        (D.map (fun v => DBOp.deleteVideo v.id) ++ [DBOp.commit])) ∧
    ((prune_missing_videos fsE fsF db found).ops.count DBOp.commit ≤ 1) ∧
    (D ≠ [] → (prune_missing_videos fsE fsF db found).ops.getLast? =
      some DBOp.commit) ∧
    (∀ it ∈ (applyDBOps db
        (prune_missing_videos fsE fsF db found).ops).playlist_items,
      ∀ w ∈ db.videos, it.video_id = w.id →
        found.contains w.video_path = true) ∧
    ((prune_missing_videos fsE fsF db found).ops =
      (prune_missing_videos fsE' fsF' db found).ops ∧
     (prune_missing_videos fsE fsF db found).deleted_count =
      (prune_missing_videos fsE' fsF' db found).deleted_count) := by
  have hmap := buildPathMap_nodup db.videos hnd
  rcases hDe : (db.videos.filter
      (fun v => !found.contains v.video_path)).isEmpty with _ | _
  · -- rows to delete exist
    have hDne : D ≠ [] := by
      rw [hD]
      intro hh
      rw [hh] at hDe
      cases hDe
    have hops : ∀ (e f : String → Bool),
        (prune_missing_videos e f db found).ops =
          DBOp.deletePlaylistItems ids ::
            (D.map (fun v => DBOp.deleteVideo v.id) ++ [DBOp.commit]) := by
      intro e f
      simp only [prune_missing_videos, hmap, hDe, Bool.false_eq_true,
        if_false, hD, hids]
    have hcnt : ∀ (e f : String → Bool),
        (prune_missing_videos e f db found).deleted_count = D.length := by
      intro e f
      simp only [prune_missing_videos, hmap, hDe, Bool.false_eq_true,
        if_false, hD]
    have happ : applyDBOps db (prune_missing_videos fsE fsF db found).ops =
        { videos :=
            db.videos.filter (fun w => !(D.any (fun v => w.id == v.id))),
          playlist_items :=
            db.playlist_items.filter (fun it => !ids.contains it.video_id),
          smart_playlist_ids := db.smart_playlist_ids } := by
      rw [hops fsE fsF, applyDBOps_cons]
      show applyDBOps
        { db with playlist_items :=
            db.playlist_items.filter (fun it => !ids.contains it.video_id) }
        _ = _
      rw [applyDBOps_append, applyDeletes]
      rfl
    refine ⟨?_, ?_, hcnt fsE fsF, fun hc => absurd hc hDne,
      fun _ => hops fsE fsF, ?_, ?_, ?_,
      ⟨(hops fsE fsF).trans (hops fsE' fsF').symm,
       (hcnt fsE fsF).trans (hcnt fsE' fsF').symm⟩⟩
    · rw [happ]
      apply List.filter_congr
      intro w hw
      rw [hD, mem_pruned_ids_iff db found hid w hw, Bool.not_not]
    · rw [happ]
    · rw [hops fsE fsF]
      have hnotin : DBOp.commit ∉ D.map (fun v => DBOp.deleteVideo v.id) := by
        intro hmem
        obtain ⟨v, _, hv⟩ := List.mem_map.mp hmem
        cases hv
      simp [List.count_cons, List.count_append,
        List.count_eq_zero.mpr hnotin]
    · intro _
      rw [hops fsE fsF,
        show DBOp.deletePlaylistItems ids ::
            (D.map (fun v => DBOp.deleteVideo v.id) ++ [DBOp.commit]) =
          (DBOp.deletePlaylistItems ids ::
            D.map (fun v => DBOp.deleteVideo v.id)) ++ [DBOp.commit]
          from rfl,
        List.getLast?_concat]
    · intro it hit w hw hidw
      rw [happ] at hit
      simp only at hit
      rw [List.mem_filter] at hit
      obtain ⟨_, hit2⟩ := hit
      rcases hfc : found.contains w.video_path with _ | _
      · exfalso
        have hwD : w ∈ D := by
          rw [hD, List.mem_filter]
          exact ⟨hw, by rw [hfc]; rfl⟩
        have hmemids : it.video_id ∈ ids := by
          rw [hids, hidw]
          exact List.mem_map_of_mem _ hwD
        have hc2 : ids.contains it.video_id = true :=
          List.elem_eq_true_of_mem hmemids
        rw [hc2] at hit2
        cases hit2
      · rfl
  · -- nothing to delete
    have hDnil : D = [] := by rw [hD]; exact List.isEmpty_iff.mp hDe
    have hfilnil : db.videos.filter
        (fun v => !found.contains v.video_path) = [] := by
      rw [← hD]; exact hDnil
    have hallfound : ∀ v ∈ db.videos,
        found.contains v.video_path = true := by
      intro v hv
      have hnp := List.filter_eq_nil_iff.mp hfilnil v hv
      rcases h : found.contains v.video_path with _ | _
      · exact absurd (by rw [h]; rfl) hnp
      · rfl
    have hops0 : ∀ (e f : String → Bool),
        (prune_missing_videos e f db found).ops = [] := by
      intro e f
      simp only [prune_missing_videos, hmap, hDe, if_true]
    have hcnt0 : ∀ (e f : String → Bool),
        (prune_missing_videos e f db found).deleted_count = 0 := by
      intro e f
      simp only [prune_missing_videos, hmap, hDe, if_true]
    refine ⟨?_, ?_, ?_, fun _ => hops0 fsE fsF,
      fun hc => absurd hDnil hc, ?_, fun hc => absurd hDnil hc, ?_,
      ⟨(hops0 fsE fsF).trans (hops0 fsE' fsF').symm,
       (hcnt0 fsE fsF).trans (hcnt0 fsE' fsF').symm⟩⟩
    · rw [hops0 fsE fsF, applyDBOps_nil]
      exact (List.filter_eq_self.mpr hallfound).symm
    · rw [hops0 fsE fsF, applyDBOps_nil, hids, hDnil]
      simp
    · rw [hcnt0 fsE fsF, hDnil]
      rfl
    · rw [hops0 fsE fsF]
      simp
    · intro it _ w hw _
      exact hallfound w hw

/-- C4 witness: `pruning_contract` against the sample catalog with only
row 1's file still on disk — rows 2 and 3 are pruned together with their
playlist-5 memberships, the count is 2, the trace ends in its single
commit, and the database effects ignore the filesystem oracles. -/
theorem pruning_contract_witness :
    ((applyDBOps wDB (prune_missing_videos (fun _ => true) (fun _ => false)
        wDB wFound).ops).videos =
      wDB.videos.filter (fun v => wFound.contains v.video_path)) ∧
    ((prune_missing_videos (fun _ => true) (fun _ => false)
        wDB wFound).deleted_count = wPruned.length) ∧
    ((prune_missing_videos (fun _ => true) (fun _ => false)
        wDB wFound).ops.getLast? = some DBOp.commit) ∧
    (∀ it ∈ (applyDBOps wDB (prune_missing_videos (fun _ => true)
        (fun _ => false) wDB wFound).ops).playlist_items,
      ∀ w ∈ wDB.videos, it.video_id = w.id →
        wFound.contains w.video_path = true) ∧
    ((prune_missing_videos (fun _ => true) (fun _ => false) wDB wFound).ops =
      (prune_missing_videos (fun _ => false) (fun _ => true)
        wDB wFound).ops) :=
  have h := pruning_contract (fun _ => true) (fun _ => false)
    (fun _ => false) (fun _ => true) wDB wFound wPruned wPrunedIds
    (by decide) (by decide) (by exact rfl) (by exact rfl)
  ⟨h.1, h.2.2.1, h.2.2.2.2.2.2.1 (by decide), h.2.2.2.2.2.2.2.1,
    h.2.2.2.2.2.2.2.2.1⟩

/-- C10: the subtitle converter is a total function of its input — the body
never escapes the `try` in the embedding, and for every input string the
result begins with the `WEBVTT` header; the `except` fallback is exactly the
minimal `WEBVTT` document (which also begins with the header). -/
theorem srt_to_vtt_totality_and_header (s : String) :
    (∃ t, srt_to_vtt s = "WEBVTT" ++ t) ∧
    strIsPrefix "WEBVTT" (srt_to_vtt s) = true ∧
    srt_to_vtt_fallback = "WEBVTT" ++ "\n\n" ∧
    strIsPrefix "WEBVTT" srt_to_vtt_fallback = true :=
  ⟨⟨_, rfl⟩, rfl, rfl, rfl⟩

/-- C9 witness: both branches of `progress_update_threshold` at a concrete
row and concrete payloads. -/
theorem progress_update_threshold_witness :
    update_video_progress
      { id := 1, video_path := "/m/a.mp4", title := "a",
        show_title := some "S", summary := none, relative_path := none,
        thumbnail_path := none, show_poster_path := none,
        custom_thumbnail_path := none, subtitle_path := none,
        is_favorite := false, is_watch_later := false,
        last_watched := some 50, watched_duration := 9,
        is_short := false, duration := 100, transcoded_path := none,
        video_type := none, media_type := "video",
        is_associated_thumbnail := false } 2 77 =
      ({ id := 1, video_path := "/m/a.mp4", title := "a",
         show_title := some "S", summary := none, relative_path := none,
         thumbnail_path := none, show_poster_path := none,
         custom_thumbnail_path := none, subtitle_path := none,
         is_favorite := false, is_watch_later := false,
         last_watched := some 50, watched_duration := 9,
         is_short := false, duration := 100, transcoded_path := none,
         video_type := none, media_type := "video",
         is_associated_thumbnail := false }, false, ⟨true, 9, some 50⟩) ∧
    update_video_progress
      { id := 1, video_path := "/m/a.mp4", title := "a",
        show_title := some "S", summary := none, relative_path := none,
        thumbnail_path := none, show_poster_path := none,
        custom_thumbnail_path := none, subtitle_path := none,
        is_favorite := false, is_watch_later := false,
        last_watched := some 50, watched_duration := 9,
        is_short := false, duration := 100, transcoded_path := none,
        video_type := none, media_type := "video",
        is_associated_thumbnail := false } 10 77 =
      ({ id := 1, video_path := "/m/a.mp4", title := "a",
         show_title := some "S", summary := none, relative_path := none,
         thumbnail_path := none, show_poster_path := none,
         custom_thumbnail_path := none, subtitle_path := none,
         is_favorite := false, is_watch_later := false,
         last_watched := some 77, watched_duration := 10,
         is_short := false, duration := 100, transcoded_path := none,
         video_type := none, media_type := "video",
         is_associated_thumbnail := false }, true, ⟨true, 10, some 77⟩) :=
  ⟨(progress_update_threshold _ 2 77).1 (by decide),
   (progress_update_threshold _ 10 77).2 (by decide)⟩

end VolumePlay
